import Mathlib

/-!
Verification of the PSPLIB-Editor repository: a shallow embedding of the
instance data model (`psplib_editor/instances.py`), the line scanner and
record parser (`psplib_editor/parsing.py`, class `FileParser`), the PSPLIB
decoder (`_parse_psplib`), and the JSON encoder
(`psplib_editor/writing.py`, `ProblemInstanceJSONEncoder`), together with
theorems settling the specification claims about them.

Python mapping conventions used throughout:
* Python `dict` is modelled as an association list `List (K × V)` kept in
  insertion order, with `dictInsert` implementing `d[k] = v`
  (update-in-place for an existing key, append for a new key) and
  `List.lookup` implementing `d[k]` / `k in d`.
* Machine strings are Lean `String`; characters are `Char`.
* Raised exceptions are modelled with `Except PyError`.
-/

namespace PSPLib

/-- Errors raised by the embedded code.  `parseError` and
`unsupportedOperation` model `FileParser.ParseError` and
`FileParser.UnsupportedOperationError`; both carry the source name and the
current line number exactly as `FileParser.FileParserError.__init__` embeds
them into the message.  `conversionError` models an exception escaping from
a converter passed to `parse_line` (not a `FileParserError`).  `shapeError`
marks statically-impossible result shapes introduced by typing the generic
parser.  `keyError` and `attributeError` model the Python builtin
exceptions of those names. -/
inductive PyError where
  | parseError (filename : String) (linenum : Nat) (message : String)
  | unsupportedOperation (filename : String) (linenum : Nat) (message : String)
  | conversionError
  | shapeError
  | keyError
  | attributeError
deriving DecidableEq

/-- Python `d[k] = v` on a dict modelled as an insertion-ordered
association list: update the value in place if `k` is present, otherwise
append the new binding at the end. -/
def dictInsert {K V : Type} [DecidableEq K] (k : K) (v : V) : List (K × V) → List (K × V)
  | [] => [(k, v)]
  | (k', v') :: rest => if k' = k then (k, v) :: rest else (k', v') :: dictInsert k v rest

/-- Build a Python dict from a list of key-value pairs, in order (later
duplicates overwrite earlier values, as in a dict comprehension). -/
def dictOfPairs {K V : Type} [DecidableEq K] (l : List (K × V)) : List (K × V) :=
  l.foldl (fun m kv => dictInsert kv.1 kv.2 m) []

/-! ## The instance data model (`psplib_editor/instances.py`) -/

/-- The `Precedence` dataclass: an ordered pair of job ids. -/
structure Precedence where
  predecessor : Int
  successor : Int
deriving DecidableEq

/-- The `Job` dataclass; `consumption` is a Python dict from resource key to
required amount (insertion-ordered association list). -/
structure Job where
  id : Int
  duration : Int
  consumption : List (String × Int)
deriving DecidableEq

/-- The `Resource` hierarchy (`RenewableResource` with `capacity`,
`NonRenewableResource` with `initial_capacity`) as a tagged variant. -/
inductive Resource where
  | renewable (key : String) (capacity : Int)
  | nonRenewable (key : String) (initial_capacity : Int)
deriving DecidableEq

/-- Accessor `Resource.key`. -/
def Resource.key : Resource → String
  | .renewable k _ => k
  | .nonRenewable k _ => k

/-- The `type` property of the resource classes. -/
def Resource.type : Resource → String
  | .renewable _ _ => "Renewable"
  | .nonRenewable _ _ => "NonRenewable"

/-- The `ProblemInstance` dataclass, with its hidden derived-data fields
(`hidden_field` defaults: `_data_built = False`, maps empty). -/
structure ProblemInstance where
  name : Option String
  horizon : Int
  jobs : List Job
  precedences : List Precedence
  resources : List Resource
  _data_built : Bool := false
  _jobs_by_id : List (Int × Job) := []
  _job_predecessors : List (Int × List Int) := []
  _job_successors : List (Int × List Int) := []
  _resources_by_key : List (String × Resource) := []
deriving DecidableEq

/-- The body of the `for precedence in self.precedences` loop in
`_build_data_if_needed`, acting on the pair of adjacency dicts
`(job_predecessors, job_successors)`. -/
def precStep (maps : List (Int × List Int) × List (Int × List Int)) (p : Precedence) :
    List (Int × List Int) × List (Int × List Int) :=
  let mp := maps.1
  let ms := maps.2
  let ms := if (ms.lookup p.predecessor).isNone then dictInsert p.predecessor [] ms else ms
  let mp := if (mp.lookup p.successor).isNone then dictInsert p.successor [] mp else mp
  let ms := dictInsert p.predecessor (((ms.lookup p.predecessor).getD []) ++ [p.successor]) ms
  let mp := dictInsert p.successor (((mp.lookup p.successor).getD []) ++ [p.predecessor]) mp
  (mp, ms)

/-- Method `ProblemInstance._build_data_if_needed`: if the build flag is set,
return unchanged; otherwise scan `jobs`, `precedences` and `resources`
once each to build the four derived dicts and set the flag. -/
def _build_data_if_needed (pi : ProblemInstance) : ProblemInstance :=
  if pi._data_built then pi
  else
    let jobsById := pi.jobs.foldl (fun m job => dictInsert job.id job m) []
    let maps := pi.precedences.foldl precStep ([], [])
    let resByKey := pi.resources.foldl (fun m r => dictInsert r.key r m) []
    { pi with
      _jobs_by_id := jobsById
      _job_predecessors := maps.1
      _job_successors := maps.2
      _resources_by_key := resByKey
      _data_built := true }

/-- Constructor `ProblemInstance.__init__`: stores the collections, leaves the hidden
fields at their defaults, and builds the derived data eagerly when
`build_data` is true. -/
def ProblemInstance.make (name : Option String) (horizon : Int) (jobs : List Job)
    (precedences : List Precedence) (resources : List Resource)
    (build_data : Bool := false) : ProblemInstance :=
  let pi : ProblemInstance :=
    { name := name, horizon := horizon, jobs := jobs,
      precedences := precedences, resources := resources }
  if build_data then _build_data_if_needed pi else pi

/-- The `jobs_by_id` property: build if needed, then return the cached map. -/
def jobs_by_id (pi : ProblemInstance) : List (Int × Job) :=
  (_build_data_if_needed pi)._jobs_by_id

/-- The `job_predecessors` property. -/
def job_predecessors (pi : ProblemInstance) : List (Int × List Int) :=
  (_build_data_if_needed pi)._job_predecessors

/-- The `job_successors` property. -/
def job_successors (pi : ProblemInstance) : List (Int × List Int) :=
  (_build_data_if_needed pi)._job_successors

/-- The `resources_by_key` property. -/
def resources_by_key (pi : ProblemInstance) : List (String × Resource) :=
  (_build_data_if_needed pi)._resources_by_key

/-- One adjacency-dict update of `_build_data_if_needed`: ensure key `k`
is present (with `[]`), then append `v` to its list. -/
def edgeAdd (m : List (Int × List Int)) (k v : Int) : List (Int × List Int) :=
  let m := if (m.lookup k).isNone then dictInsert k [] m else m
  dictInsert k (((m.lookup k).getD []) ++ [v]) m

/-! ## `Job.__repr__` (`instances.py`, lines 36-37) -/

/-- Modelling Python attribute lookup `n.__name__` on an `int` value `n`:
`int` objects expose no `__name__` attribute, so the access raises
`AttributeError` for every integer. -/
def py_int_name_attribute (_n : Int) : Except PyError String :=
  .error .attributeError

/-- Method `Job.__repr__`: evaluates the f-string
`f"{Job.__name__}({self.id.__name__}={self.id})"` left to right:
`Job.__name__` is the class name, then `self.id.__name__` is attribute
access on the integer id. -/
def Job.__repr__ (j : Job) : Except PyError String := do
  let clsName := "Job"
  let idName ← py_int_name_attribute j.id
  return clsName ++ "(" ++ idName ++ "=" ++ toString j.id ++ ")"

/-! ## Python string primitives used by `parsing.py`

The inputs handled by the parser are ASCII, so the ASCII fragment of
Python's notion of whitespace and digits is modelled. -/

/-- Python `str.isspace` / regex `\s` on the ASCII range. -/
def py_isspace (c : Char) : Bool :=
  c == ' ' || c == '\t' || c == '\n' || c == '\r' || c == '\x0b' || c == '\x0c'

/-- Python `str.rstrip()` with no argument: remove all trailing
whitespace characters. -/
def py_rstrip (s : String) : String :=
  ⟨(s.data.reverse.dropWhile py_isspace).reverse⟩

/-- Helper for `py_split`: accumulates the current token (reversed). -/
def py_split_go : List Char → List Char → List String
  | [], tok => if tok.isEmpty then [] else [⟨tok.reverse⟩]
  | c :: cs, tok =>
    if py_isspace c then
      if tok.isEmpty then py_split_go cs [] else ⟨tok.reverse⟩ :: py_split_go cs []
    else py_split_go cs (c :: tok)

/-- Python `str.split()` with no argument: split on runs of whitespace,
discarding empty tokens. -/
def py_split (s : String) : List String :=
  py_split_go s.data []

/-- Value of a nonempty all-digit character list, used by `py_int`. -/
def digitsVal (ds : List Char) : Option Int :=
  if ds.isEmpty then none
  else if ds.all Char.isDigit then
    some (ds.foldl (fun a c => 10 * a + ((c.toNat - '0'.toNat : Nat) : Int)) 0)
  else none

/-- Python `int(str)`: strips surrounding whitespace, accepts an optional
sign followed by a nonempty digit run, and raises `ValueError` (modelled
as `none`) otherwise. -/
def py_int (s : String) : Option Int :=
  match (s.data.dropWhile py_isspace).reverse.dropWhile py_isspace |>.reverse with
  | [] => none
  | '+' :: ds => digitsVal ds
  | '-' :: ds => (digitsVal ds).map (fun n => -n)
  | ds => digitsVal ds

/-! ## A backtracking regex engine for the `re` patterns of `parsing.py`

Only the constructs appearing in the source's patterns are needed:
character classes (`\s`, `\d`, `[RND]`, literals, `.`), concatenation,
greedy `*`/`+`/`?` (via alternation preferring the left branch, which is
Python's backtracking priority), and capturing groups whose last match is
recorded, as `match.groups()` does.  The matcher is fuelled; the fuel
bounds the recursion depth and is chosen far above what any line of a
PSPLIB file can need. -/

/-- Regex abstract syntax. -/
inductive RE where
  | eps
  | cls (p : Char → Bool)
  | seq (a b : RE)
  | alt (a b : RE)
  | star (a : RE)
  | group (idx : Nat) (a : RE)

/-- Greedy `?`. -/
def RE.opt (a : RE) : RE := .alt a .eps

/-- Greedy `+`. -/
def RE.plus (a : RE) : RE := .seq a (.star a)

/-- A literal string. -/
def RE.lit (s : String) : RE :=
  s.data.foldr (fun c r => RE.seq (.cls (· == c)) r) .eps

/-- Number of capturing groups of a pattern (`re.Pattern.groups`). -/
def RE.numGroups : RE → Nat
  | .eps => 0
  | .cls _ => 0
  | .seq a b => a.numGroups + b.numGroups
  | .alt a b => a.numGroups + b.numGroups
  | .star a => a.numGroups
  | .group _ a => a.numGroups + 1

/-- The backtracking matcher in continuation-passing style.  `caps` maps a
group index to the last string that group matched.  Alternation tries the
left branch first; `star` tries to iterate first (greedy) and requires
each iteration to consume input. -/
def reRun {α : Type} (fuel : Nat) (re : RE) (cs : List Char)
    (caps : List (Nat × String)) (k : List Char → List (Nat × String) → Option α) :
    Option α :=
  match fuel with
  | 0 => none
  | fuel + 1 =>
    match re with
    | .eps => k cs caps
    | .cls p =>
      match cs with
      | [] => none
      | c :: rest => if p c then k rest caps else none
    | .seq a b => reRun fuel a cs caps (fun cs' caps' => reRun fuel b cs' caps' k)
    | .alt a b =>
      match reRun fuel a cs caps k with
      | some r => some r
      | none => reRun fuel b cs caps k
    | .star a =>
      match reRun fuel a cs caps (fun cs' caps' =>
          if cs'.length < cs.length then reRun fuel (.star a) cs' caps' k else none) with
      | some r => some r
      | none => k cs caps
    | .group i a =>
      reRun fuel a cs caps (fun cs' caps' =>
        k cs' (dictInsert i (⟨cs.take (cs.length - cs'.length)⟩ : String) caps'))

/-- Fuel used for every `re` call of the embedded parser. -/
def reFuel : Nat := 100000

/-- Python `match.groups()`: the capture of each group of the pattern, in index
order, `none` for a group that did not participate in the match. -/
def reGroups (re : RE) (caps : List (Nat × String)) : List (Option String) :=
  (List.range re.numGroups).map (fun i => caps.lookup i)

/-- Python `re.fullmatch(pattern, line)`, returning `groups()` on success. -/
def reFullmatch (re : RE) (s : String) : Option (List (Option String)) :=
  reRun reFuel re s.data []
    (fun rest caps => if rest.isEmpty then some (reGroups re caps) else none)

/-- Python `re.match(pattern, line)` (prefix match), returning `groups()`. -/
def reMatch (re : RE) (s : String) : Option (List (Option String)) :=
  reRun reFuel re s.data [] (fun _ caps => some (reGroups re caps))

/-- Python `re.findall(pattern, s)` for a groupless pattern: the list of
non-overlapping matches, scanning left to right (an empty match advances
by one character). -/
def reFindallGo (re : RE) : Nat → List Char → List String
  | 0, _ => []
  | _ + 1, [] =>
    match reRun reFuel re [] [] (fun rest _ => some rest) with
    | some _ => [(⟨[]⟩ : String)]
    | none => []
  | fuel + 1, c :: cs =>
    match reRun reFuel re (c :: cs) [] (fun rest _ => some rest) with
    | some rest =>
      if rest.length < (c :: cs).length then
        (⟨(c :: cs).take ((c :: cs).length - rest.length)⟩ : String) ::
          reFindallGo re fuel ((c :: cs).drop ((c :: cs).length - rest.length))
      else
        (⟨[]⟩ : String) :: reFindallGo re fuel cs
    | none => reFindallGo re fuel cs

/-- Python `re.findall` over a string.  Each scanning step either consumes at
least one matched character or advances one position, so a fuel of one
more than the string length never runs out. -/
def reFindall (re : RE) (s : String) : List String :=
  reFindallGo re (s.data.length + 1) s.data

/-! ## The `FileParser` line scanner and record parser (`parsing.py`) -/

/-- The state of a `FileParser` whose `init` has been called on an open
text source: the source's `name`, its physical lines (each including any
trailing line terminator, as `readline` returns them), the stream
position, and the 1-based line counter (`_linenum`, initially 0). -/
structure FileParser where
  name : String
  lines : List String
  pos : Nat
  linenum : Nat
deriving DecidableEq

/-- Method `FileParser.read_line`: reads the next physical line (the empty
string at end of stream), strips it with `rstrip()`, and advances the
line counter. -/
def read_line (fp : FileParser) : String × FileParser :=
  (py_rstrip (fp.lines.getD fp.pos ""),
   { fp with pos := fp.pos + 1, linenum := fp.linenum + 1 })

/-- Method `FileParser.skip_lines` for a non-negative count (the decoder only
passes the literals 1 and 2; a negative count raises
`UnsupportedOperationError` and cannot be expressed with `Nat`). -/
def skip_lines (n : Nat) (fp : FileParser) : FileParser :=
  match n with
  | 0 => fp
  | n + 1 => skip_lines n (read_line fp).2

/-- Values produced by the converters that `_parse_psplib` passes to
`parse_line`: `int`, tuples of ints, and lists of key strings. -/
inductive PyVal where
  | int (n : Int)
  | ints (l : List Int)
  | strs (l : List String)
deriving DecidableEq

/-- The `types` argument of `parse_line`: either a single converter or a
sequence of converters; a converter receives the captured string of its
group (`none` when the group did not participate) and `none` as a result
models an exception raised by the converter. -/
inductive ConvSpec where
  | single (f : Option String → Option PyVal)
  | multiple (fs : List (Option String → Option PyVal))

/-- The number of expected values of a `types` argument. -/
def ConvSpec.count : ConvSpec → Nat
  | .single _ => 1
  | .multiple fs => fs.length

/-- The `parse_line` normalization `types = (types,)` of a single converter
into a one-element sequence. -/
def ConvSpec.convs : ConvSpec → List (Option String → Option PyVal)
  | .single f => [f]
  | .multiple fs => fs

/-- The return value of `parse_line`: a single parsed value when `types`
was a single converter, otherwise the list of parsed values. -/
inductive PyRet where
  | one (v : PyVal)
  | many (vs : List PyVal)
deriving DecidableEq

/-- Method `FileParser.parse_line`: reads one line, matches the pattern
(full-string by default, prefix when `fullmatch` is false), checks that
the number of converters equals the number of capture groups, and applies
each converter to its captured string in order. -/
def parse_line (fp : FileParser) (pattern : RE) (types : ConvSpec)
    (fullmatch : Bool := true) : Except PyError (PyRet × FileParser) :=
  match (if fullmatch then reFullmatch pattern (read_line fp).1
         else reMatch pattern (read_line fp).1) with
  | none => .error (.parseError (read_line fp).2.name (read_line fp).2.linenum
      "Pattern did not match the current line")
  | some values =>
    if types.convs.length ≠ values.length then
      .error (.parseError (read_line fp).2.name (read_line fp).2.linenum
        "Number of matched values does not correspond to number of expected values")
    else
      match (values.zip types.convs).mapM (fun vf => vf.2 vf.1) with
      | none => .error .conversionError
      | some parsed =>
        match types with
        | .single _ => .ok (.one (parsed.getD 0 (.int 0)), (read_line fp).2)
        | .multiple _ => .ok (.many parsed, (read_line fp).2)

/-! ## The PSPLIB decoder (`_parse_psplib` in `parsing.py`)

Each `re` pattern string of the source is transliterated into an `RE`
value; capturing groups are numbered left to right from 0 as `groups()`
indexes them. -/

/-- Class `\s`. -/
def sP : RE := .cls py_isspace

/-- Class `\d`. -/
def dP : RE := .cls Char.isDigit

/-- Class `[RND]`. -/
def rndP : RE := .cls (fun c => c == 'R' || c == 'N' || c == 'D')

/-- Dot `.` (any character but a newline). -/
def dotP : RE := .cls (· != '\n')

/-- Concatenation of a list of patterns. -/
def reCat (l : List RE) : RE := l.foldr .seq .eps

/-- Source `pattern_keyvalue(key)`: the pattern string `\s*<key>\s*:\s*(\d+)`
(the key is `re.escape`d, hence literal). -/
def pattern_keyvalue (key : String) : RE :=
  reCat [.star sP, RE.lit key, .star sP, RE.lit ":", .star sP, .group 0 (RE.plus dP)]

/-- Source `pattern_resource_definition(resource, type)`:
`\s*-\s+<resource>\s*:\s*(\d+)\s+<type>`. -/
def pattern_resource_definition (resource type_ : String) : RE :=
  reCat [.star sP, RE.lit "-", RE.plus sP, RE.lit resource, .star sP, RE.lit ":",
    .star sP, .group 0 (RE.plus dP), RE.plus sP, RE.lit type_]

/-- The project-information record pattern
`\s*(\d+)\s+(?:\d+)\s+(?:\d+)\s+(\d+)\s+(\d+)\s+(?:\d+)\s*`. -/
def pattern_project : RE :=
  reCat [.star sP, .group 0 (RE.plus dP), RE.plus sP, RE.plus dP, RE.plus sP,
    RE.plus dP, RE.plus sP, .group 1 (RE.plus dP), RE.plus sP, .group 2 (RE.plus dP),
    RE.plus sP, RE.plus dP, .star sP]

/-- The precedence-record and job-record pattern
`\s*(\d+)\s+(\d+)\s+(\d+)\s*(\s+\d+(?:\s+\d+)*)?\s*`. -/
def pattern_precjob : RE :=
  reCat [.star sP, .group 0 (RE.plus dP), RE.plus sP, .group 1 (RE.plus dP),
    RE.plus sP, .group 2 (RE.plus dP), .star sP,
    RE.opt (.group 3 (reCat [RE.plus sP, RE.plus dP,
      .star (reCat [RE.plus sP, RE.plus dP])])),
    .star sP]

/-- The requests/durations header pattern
`\s*jobnr.\s+mode\s+duration\s*(\s+[RND]\s\d+(?:\s+[RND]\s\d+)*)?\s*`
(the unescaped `.` after `jobnr` matches any character). -/
def pattern_requests_header : RE :=
  reCat [.star sP, RE.lit "jobnr", dotP, RE.plus sP, RE.lit "mode", RE.plus sP,
    RE.lit "duration", .star sP,
    RE.opt (.group 0 (reCat [RE.plus sP, rndP, sP, RE.plus dP,
      .star (reCat [RE.plus sP, rndP, sP, RE.plus dP])])),
    .star sP]

/-- The key token pattern `[RND]\s\d+` used with `re.findall`. -/
def pattern_key_token : RE := reCat [rndP, sP, RE.plus dP]

/-- The resource-availabilities pattern `\s*(\d+(?:\s+\d+)*)?\s*`. -/
def pattern_capacities : RE :=
  reCat [.star sP,
    RE.opt (.group 0 (reCat [RE.plus dP, .star (reCat [RE.plus sP, RE.plus dP])])),
    .star sP]

/-- The `int` converter. -/
def conv_int : Option String → Option PyVal
  | none => none
  | some s => (py_int s).map .int

/-- The converter
`lambda s: tuple(map(int, s.split())) if s else tuple()` used for
successor lists, consumption lists and capacities. -/
def conv_int_list : Option String → Option PyVal
  | none => some (.ints [])
  | some s =>
    if s.isEmpty then some (.ints [])
    else ((py_split s).mapM py_int).map .ints

/-- The converter
`lambda s: re.findall(r"[RND]\s\d+", s) if s else []` for the resource
key list. -/
def conv_keys : Option String → Option PyVal
  | none => some (.strs [])
  | some s =>
    if s.isEmpty then some (.strs [])
    else some (.strs (reFindall pattern_key_token s))

/-- Call `parse_line(pattern_keyvalue(key), int)` with the result typed. -/
def parse_keyvalue (key : String) (fp : FileParser) : Except PyError (Int × FileParser) :=
  match parse_line fp (pattern_keyvalue key) (.single conv_int) with
  | .error e => .error e
  | .ok (.one (.int n), fp') => .ok (n, fp')
  | .ok _ => .error .shapeError

/-- Call `parse_line(pattern_resource_definition(r, t), int)` typed. -/
def parse_resource_definition (resource type_ : String) (fp : FileParser) :
    Except PyError (Int × FileParser) :=
  match parse_line fp (pattern_resource_definition resource type_) (.single conv_int) with
  | .error e => .error e
  | .ok (.one (.int n), fp') => .ok (n, fp')
  | .ok _ => .error .shapeError

/-- One project-information record, typed. -/
def read_project_record (fp : FileParser) :
    Except PyError ((Int × Int × Int) × FileParser) :=
  match parse_line fp pattern_project (.multiple [conv_int, conv_int, conv_int]) with
  | .error e => .error e
  | .ok (.many [.int a, .int b, .int c], fp') => .ok ((a, b, c), fp')
  | .ok _ => .error .shapeError

/-- One precedence-relations record
`(job_id, mode_count, successor_count, successor_list)`, typed. -/
def read_prec_record (fp : FileParser) :
    Except PyError ((Int × Int × Int × List Int) × FileParser) :=
  match parse_line fp pattern_precjob
      (.multiple [conv_int, conv_int, conv_int, conv_int_list]) with
  | .error e => .error e
  | .ok (.many [.int jid, .int m, .int cnt, .ints succs], fp') =>
    .ok ((jid, m, cnt, succs), fp')
  | .ok _ => .error .shapeError

/-- One requests/durations record
`(job_id, mode, duration, consumption_list)`, typed. -/
def read_job_record (fp : FileParser) :
    Except PyError ((Int × Int × Int × List Int) × FileParser) :=
  match parse_line fp pattern_precjob
      (.multiple [conv_int, conv_int, conv_int, conv_int_list]) with
  | .error e => .error e
  | .ok (.many [.int jid, .int m, .int dur, .ints cons], fp') =>
    .ok ((jid, m, dur, cons), fp')
  | .ok _ => .error .shapeError

/-- The `for _ in range(project_count)` loop, accumulating
`(project_id, duedate, tardiness_cost)` triples. -/
def proj_loop : Nat → FileParser → List (Int × Int × Int) →
    Except PyError (List (Int × Int × Int) × FileParser)
  | 0, fp, acc => .ok (acc, fp)
  | n + 1, fp, acc =>
    match read_project_record fp with
    | .error e => .error e
    | .ok (r, fp') => proj_loop n fp' (acc ++ [r])

/-- The precedence-relations loop: `job_count` records, each checked
against its declared successor count and contributing one
`(job_id, successor)` pair per listed successor. -/
def prec_loop : Nat → FileParser → List (Int × Int) →
    Except PyError (List (Int × Int) × FileParser)
  | 0, fp, acc => .ok (acc, fp)
  | n + 1, fp, acc =>
    match read_prec_record fp with
    | .error e => .error e
    | .ok ((jid, _m, cnt, succs), fp') =>
      if cnt ≠ (succs.length : Int) then
        .error (.parseError fp'.name fp'.linenum
          "Number of parsed job successors does not match the expected number of job successors")
      else prec_loop n fp' (acc ++ succs.map (fun s => (jid, s)))

/-- The requests/durations loop: `job_count` records, each consumption
list checked against the declared resource count. -/
def job_loop (num_resources : Int) : Nat → FileParser → List (Int × Int × List Int) →
    Except PyError (List (Int × Int × List Int) × FileParser)
  | 0, fp, acc => .ok (acc, fp)
  | n + 1, fp, acc =>
    match read_job_record fp with
    | .error e => .error e
    | .ok ((jid, _mode, dur, cons), fp') =>
      if (cons.length : Int) ≠ num_resources then
        .error (.parseError fp'.name fp'.linenum
          "Number of parsed job resource-consumptions does not match the expected number of resources")
      else job_loop num_resources n fp' (acc ++ [(jid, dur, cons)])

/-- The resource-keys header line, typed. -/
def parse_resource_keys (fp : FileParser) :
    Except PyError (List String × FileParser) :=
  match parse_line fp pattern_requests_header (.single conv_keys) with
  | .error e => .error e
  | .ok (.one (.strs keys), fp') => .ok (keys, fp')
  | .ok _ => .error .shapeError

/-- The resource-availabilities line, typed. -/
def parse_capacities (fp : FileParser) :
    Except PyError (List Int × FileParser) :=
  match parse_line fp pattern_capacities (.single conv_int_list) with
  | .error e => .error e
  | .ok (.one (.ints caps), fp') => .ok (caps, fp')
  | .ok _ => .error .shapeError

/-- The data `_parse_psplib` has collected when it reaches its
`# Build the instance` section. -/
structure RawParse where
  horizon : Int
  num_resources : Int
  resource_keys : List String
  jobRows : List (Int × Int × List Int)
  precPairs : List (Int × Int)
  capacities : List Int
  finalSt : FileParser
deriving DecidableEq

/-- The parsing phase of `_parse_psplib`: drives the scanner through the
fixed section sequence and collects the raw data (everything before the
`# Build the instance` comment in the source). -/
def _parse_psplib_raw (fp0 : FileParser) : Except PyError RawParse := do
  let fp := skip_lines 1 fp0
  let fp := skip_lines 2 fp
  let fp := skip_lines 1 fp
  let (project_count, fp) ← parse_keyvalue "projects" fp
  let (job_count, fp) ← parse_keyvalue "jobs (incl. supersource/sink )" fp
  let (horizon, fp) ← parse_keyvalue "horizon" fp
  let fp := skip_lines 1 fp
  let (renewable_resource_count, fp) ← parse_resource_definition "renewable" "R" fp
  let (nonrenewable_resource_count, fp) ← parse_resource_definition "nonrenewable" "N" fp
  let (_doubly_constrained_resource_count, fp) ←
    parse_resource_definition "doubly constrained" "D" fp
  if project_count ≠ 1 then
    throw (.unsupportedOperation fp.name fp.linenum
      "Only single-project instances are currently supported")
  else if _doubly_constrained_resource_count > 0 then
    throw (.unsupportedOperation fp.name fp.linenum
      "Doubly-constrained resources are not currently supported")
  else do
  let num_resources := renewable_resource_count + nonrenewable_resource_count +
    _doubly_constrained_resource_count
  let fp := skip_lines 1 fp
  let fp := skip_lines 2 fp
  let (_projects, fp) ← proj_loop project_count.toNat fp []
  let fp := skip_lines 1 fp
  let fp := skip_lines 2 fp
  let (precPairs, fp) ← prec_loop job_count.toNat fp []
  let fp := skip_lines 1 fp
  let fp := skip_lines 1 fp
  let (resource_keys, fp) ← parse_resource_keys fp
  if (resource_keys.length : Int) ≠ num_resources then
    throw (.parseError fp.name fp.linenum
      "Number of parsed resource keys does not match the expected number of resources")
  else do
  let fp := skip_lines 1 fp
  let (jobRows, fp) ← job_loop num_resources job_count.toNat fp []
  let fp := skip_lines 1 fp
  let fp := skip_lines 2 fp
  let (capacities, fp) ← parse_capacities fp
  return ⟨horizon, num_resources, resource_keys, jobRows, precPairs, capacities, fp⟩

/-- Function `build_job`: builds a `Job` with its consumption dict
`{resource_key: consumption for resource_key, consumption in zip(resource_keys, job_consumptions)}`. -/
def build_job (resource_keys : List String) (job_id job_duration : Int)
    (job_consumptions : List Int) : Job :=
  ⟨job_id, job_duration, dictOfPairs (resource_keys.zip job_consumptions)⟩

/-- Function `build_resource`: the resource kind is derived from the character
found in the key token; a key with neither `R` nor `N` raises
`UnsupportedOperationError` through `parser.error`. -/
def build_resource (fp : FileParser) (key : String) (capacity : Int) :
    Except PyError Resource :=
  if 'R' ∈ key.data then .ok (.renewable key capacity)
  else if 'N' ∈ key.data then .ok (.nonRenewable key capacity)
  else .error (.unsupportedOperation fp.name fp.linenum
    "Can not recognize resource type from resource key")

/-- The assembly phase of `_parse_psplib`: builds the jobs, precedences
and resources and constructs the `ProblemInstance` (with the default
`build_data=False`). -/
def build_instance (name : Option String) (raw : RawParse) :
    Except PyError ProblemInstance :=
  let jobs := raw.jobRows.map (fun r => build_job raw.resource_keys r.1 r.2.1 r.2.2)
  let precedences := raw.precPairs.map (fun pr => Precedence.mk pr.1 pr.2)
  match (raw.resource_keys.zip raw.capacities).mapM
      (fun kc => build_resource raw.finalSt kc.1 kc.2) with
  | .error e => .error e
  | .ok resources =>
    .ok (ProblemInstance.make name raw.horizon jobs precedences resources false)

/-- Function `_parse_psplib(parser, name)`: parse all sections, then build the
instance. -/
def _parse_psplib (fp : FileParser) (name : Option String) :
    Except PyError ProblemInstance :=
  match _parse_psplib_raw fp with
  | .error e => .error e
  | .ok raw => build_instance name raw

/-- The stripping operation that the claim sentence describes, named from
the specification's words: remove exactly the trailing line terminator
and nothing else. -/
def specStripLineTerminator (s : String) : String :=
  match s.data.reverse with
  | '\n' :: '\r' :: rest => ⟨rest.reverse⟩
  | '\n' :: rest => ⟨rest.reverse⟩
  | '\r' :: rest => ⟨rest.reverse⟩
  | _ => s

/-! ## Claim C5: the precedence-relations section -/

/-- Relation `PrecChain n fp recs fp'` holds when, starting from scanner state
`fp`, the next `n` precedence records parse successfully as `recs`, each
with a successor count matching its successor list, leaving the scanner
in state `fp'`. -/
def PrecChain : Nat → FileParser → List (Int × Int × Int × List Int) → FileParser → Prop
  | 0, fp, recs, fp' => recs = [] ∧ fp' = fp
  | n + 1, fp, recs, fp'' =>
    ∃ r rs fp', recs = r :: rs ∧ read_prec_record fp = .ok (r, fp')
      ∧ r.2.2.1 = (r.2.2.2.length : Int) ∧ PrecChain n fp' rs fp''

/-- Total projection of an `Except` value, with a default for the error
case; used to name concrete parse results in closed theorems. -/
def okOr {ε α : Type} (x : Except ε α) (d : α) : α :=
  match x with
  | .ok a => a
  | .error _ => d

/-- A placeholder `RawParse`. -/
def rawDefault : RawParse := ⟨0, 0, [], [], [], [], ⟨"", [], 0, 0⟩⟩

/-- A placeholder `ProblemInstance`. -/
def instDefault : ProblemInstance := ProblemInstance.make none 0 [] [] [] false

/-- A PSPLIB input whose header declares 2 renewable resources, whose
requests/durations header lists the key `R 1` twice, and whose
availabilities line lists only one capacity. -/
def c2_bad_lines : List String := [
  "************************************************************************",
  "file with basedata            : test.bas",
  "initial value random generator: 42",
  "************************************************************************",
  "projects                      :  1",
  "jobs (incl. supersource/sink ):  1",
  "horizon                       :  10",
  "RESOURCES",
  "  - renewable                 :  2   R",
  "  - nonrenewable              :  0   N",
  "  - doubly constrained        :  0   D",
  "************************************************************************",
  "PROJECT INFORMATION:",
  "pronr.  #jobs rel.date duedate tardcost  MPM-Time",
  "    1      0      0        8        5        8",
  "************************************************************************",
  "PRECEDENCE RELATIONS:",
  "jobnr.    #modes  #successors   successors",
  "   1        1          0    ",
  "************************************************************************",
  "REQUESTS/DURATIONS:",
  "jobnr. mode duration  R 1  R 1",
  "------------------------------------------------------------------------",
  "  1      1     3       2    1",
  "************************************************************************",
  "RESOURCEAVAILABILITIES:",
  "  R 1  R 1",
  "   7"
]

/-- Scanner state over `c2_bad_lines`. -/
def c2_bad_fp : FileParser := ⟨"c2.sm", c2_bad_lines.map (· ++ "\n"), 0, 0⟩

/-- The raw parse of the bad input. -/
def c2_bad_raw : RawParse := okOr (_parse_psplib_raw c2_bad_fp) rawDefault

/-- The decoded instance of the bad input. -/
def c2_bad_inst : ProblemInstance := okOr (build_instance (some "C2") c2_bad_raw) instDefault

/-- A well-formed 2-job PSPLIB input with one renewable and one
non-renewable resource. -/
def c2_good_lines : List String := [
  "************************************************************************",
  "file with basedata            : test.bas",
  "initial value random generator: 42",
  "************************************************************************",
  "projects                      :  1",
  "jobs (incl. supersource/sink ):  2",
  "horizon                       :  10",
  "RESOURCES",
  "  - renewable                 :  1   R",
  "  - nonrenewable              :  1   N",
  "  - doubly constrained        :  0   D",
  "************************************************************************",
  "PROJECT INFORMATION:",
  "pronr.  #jobs rel.date duedate tardcost  MPM-Time",
  "    1      0      0        8        5        8",
  "************************************************************************",
  "PRECEDENCE RELATIONS:",
  "jobnr.    #modes  #successors   successors",
  "   1        1          1           2",
  "   2        1          0        ",
  "************************************************************************",
  "REQUESTS/DURATIONS:",
  "jobnr. mode duration  R 1  N 1",
  "------------------------------------------------------------------------",
  "  1      1     3       2    1",
  "  2      1     0       0    0",
  "************************************************************************",
  "RESOURCEAVAILABILITIES:",
  "  R 1  N 1",
  "   7    4"
]

/-- Scanner state over `c2_good_lines`. -/
def c2_good_fp : FileParser := ⟨"good.sm", c2_good_lines.map (· ++ "\n"), 0, 0⟩

/-- The raw parse of the good input. -/
def c2_good_raw : RawParse := okOr (_parse_psplib_raw c2_good_fp) rawDefault

/-- The decoded instance of the good input. -/
def c2_good_inst : ProblemInstance :=
  okOr (build_instance (some "Test") c2_good_raw) instDefault

/-! ## Claim C9: `build_resource` -/

/-! ## The JSON encoder (`writing.py`, `ProblemInstanceJSONEncoder`) -/

/-- JSON values, as produced by the encoder. -/
inductive JValue where
  | null
  | str (s : String)
  | int (n : Int)
  | arr (l : List JValue)
  | obj (l : List (String × JValue))

/-- Stable insertion for Python's stable `list.sort`: `lt` is the strict
key comparison, and an element is placed before the first element of the
sorted suffix that is not strictly below it (later equal elements stay
after it). -/
def insertSortedBy {α : Type} (lt : α → α → Bool) (x : α) : List α → List α
  | [] => [x]
  | y :: ys => if lt y x then y :: insertSortedBy lt x ys else x :: y :: ys

/-- Python `sorted` / `list.sort(key=...)` with a strict comparison. -/
def py_sort_by {α : Type} (lt : α → α → Bool) (l : List α) : List α :=
  l.foldr (insertSortedBy lt) []

/-- Python `sorted` on integers. -/
def py_sorted (l : List Int) : List Int := py_sort_by (fun a b => decide (a < b)) l

/-- The string at a `"Key"`-style field of an encoded object. -/
def jstr_at (d : List (String × JValue)) (field : String) : String :=
  match d.lookup field with
  | some (.str s) => s
  | _ => ""

/-- The integer at an `"Id"`-style field of an encoded object. -/
def jint_at (d : List (String × JValue)) (field : String) : Int :=
  match d.lookup field with
  | some (.int n) => n
  | _ => 0

/-- Method `ProblemInstanceJSONEncoder._encode_resource`: the capacity value is
`capacity` for a renewable resource and `initial_capacity` for a
non-renewable one. -/
def _encode_resource (r : Resource) : List (String × JValue) :=
  [("Key", .str r.key), ("Type", .str r.type),
   ("Capacity", .int (match r with | .renewable _ c => c | .nonRenewable _ c => c))]

/-- Method `ProblemInstanceJSONEncoder._encode_job`: looks the job's id up in
`instance.job_successors`; an id absent from that dict raises `KeyError`. -/
def _encode_job (inst : ProblemInstance) (job : Job) :
    Except PyError (List (String × JValue)) :=
  match (job_successors inst).lookup job.id with
  | none => .error .keyError
  | some succs => .ok [("Id", .int job.id), ("Duration", .int job.duration),
      ("Resource consumption", .obj (job.consumption.map (fun kv => (kv.1, .int kv.2)))),
      ("Successors", .arr ((py_sorted succs).map .int))]

/-- Method `ProblemInstanceJSONEncoder.default` on a `ProblemInstance`: encode
and sort the resources by `Key`, encode the jobs (failing if any job's id
is absent from `job_successors`), sort them by `Id`, and assemble the
instance object. -/
def encoder_default (inst : ProblemInstance) : Except PyError JValue :=
  let resources := py_sort_by
    (fun a b => decide (jstr_at a "Key" < jstr_at b "Key"))
    (inst.resources.map _encode_resource)
  match inst.jobs.mapM (_encode_job inst) with
  | .error e => .error e
  | .ok jobs =>
    let jobsSorted := py_sort_by (fun a b => decide (jint_at a "Id" < jint_at b "Id")) jobs
    .ok (.obj [("Name", match inst.name with | none => .null | some s => .str s),
      ("Horizon", .int inst.horizon),
      ("Resources", .arr (resources.map .obj)),
      ("Jobs", .arr (jobsSorted.map .obj))])

/-- An instance with two jobs where job 2 has no successors (as every
instance with a sink job has). -/
def c1_instance : ProblemInstance :=
  ProblemInstance.make (some "X") 10
    [⟨1, 0, []⟩, ⟨2, 3, []⟩] [⟨1, 2⟩] [.renewable "R 1" 3] false

/-- A one-job instance (its only job has no successors). -/
def c4_instance : ProblemInstance :=
  ProblemInstance.make (some "Y") 5 [⟨1, 2, [("R 1", 1)]⟩] [] [.renewable "R 1" 4] false

theorem lookup_dictInsert_self {K V : Type} [DecidableEq K] (k : K) (v : V)
    (m : List (K × V)) : (dictInsert k v m).lookup k = some v := by
  induction m with
  | nil => simp [dictInsert, List.lookup]
  | cons kv rest ih =>
    obtain ⟨k', v'⟩ := kv
    by_cases h : k' = k
    · subst h; simp [dictInsert, List.lookup]
    · have hkk : (k == k') = false := beq_eq_false_iff_ne.mpr (Ne.symm h)
      simp [dictInsert, h, List.lookup, hkk, ih]

theorem lookup_dictInsert_ne {K V : Type} [DecidableEq K] (k k' : K) (v : V)
    (m : List (K × V)) (hne : k' ≠ k) :
    (dictInsert k v m).lookup k' = m.lookup k' := by
  have hk'k : (k' == k) = false := beq_eq_false_iff_ne.mpr hne
  induction m with
  | nil => simp [dictInsert, List.lookup, hk'k]
  | cons kv rest ih =>
    obtain ⟨k₀, v₀⟩ := kv
    by_cases h : k₀ = k
    · subst h
      simp [dictInsert, List.lookup, hk'k]
    · simp only [dictInsert, if_neg h, List.lookup]
      by_cases h' : k₀ = k'
      · subst h'; simp
      · have : (k' == k₀) = false := beq_eq_false_iff_ne.mpr (Ne.symm h')
        simp [this, ih]

theorem lookup_dictOfPairs_isSome {K V : Type} [DecidableEq K] (l : List (K × V)) (k : K) :
    ((dictOfPairs l).lookup k).isSome ↔ k ∈ l.map Prod.fst := by
  suffices h : ∀ (m : List (K × V)),
      ((l.foldl (fun m kv => dictInsert kv.1 kv.2 m) m).lookup k).isSome ↔
      (m.lookup k).isSome ∨ k ∈ l.map Prod.fst by
    have := h []
    simpa [dictOfPairs, List.lookup] using this
  induction l with
  | nil => simp
  | cons kv rest ih =>
    intro m
    obtain ⟨k₀, v₀⟩ := kv
    simp only [List.foldl_cons, List.map_cons, List.mem_cons]
    rw [ih]
    by_cases h : k = k₀
    · subst h
      simp [lookup_dictInsert_self]
    · rw [lookup_dictInsert_ne _ _ _ _ h]
      tauto

theorem precStep_eq (maps : List (Int × List Int) × List (Int × List Int)) (p : Precedence) :
    precStep maps p =
      (edgeAdd maps.1 p.successor p.predecessor, edgeAdd maps.2 p.predecessor p.successor) :=
  rfl

theorem lookup_edgeAdd_self (m : List (Int × List Int)) (k v : Int) :
    (edgeAdd m k v).lookup k = some ((((m.lookup k).getD []) ++ [v])) := by
  cases h : m.lookup k with
  | none => simp [edgeAdd, h, lookup_dictInsert_self]
  | some l => simp [edgeAdd, h, lookup_dictInsert_self]

theorem lookup_edgeAdd_ne (m : List (Int × List Int)) (k k' v : Int) (h : k' ≠ k) :
    (edgeAdd m k v).lookup k' = m.lookup k' := by
  cases hm : m.lookup k with
  | none => simp [edgeAdd, hm, lookup_dictInsert_ne _ _ _ _ h]
  | some l => simp [edgeAdd, hm, lookup_dictInsert_ne _ _ _ _ h]

theorem mem_lookup_foldl_edgeAdd (f g : Precedence → Int) (l : List Precedence) :
    ∀ (m : List (Int × List Int)) (p s : Int),
    (s ∈ (((l.foldl (fun m pr => edgeAdd m (f pr) (g pr)) m).lookup p).getD []) ↔
      s ∈ (((m.lookup p).getD [])) ∨ ∃ pr ∈ l, f pr = p ∧ g pr = s) := by
  induction l with
  | nil => simp
  | cons a rest ih =>
    intro m p s
    simp only [List.foldl_cons, List.mem_cons]
    rw [ih]
    by_cases hp : p = f a
    · subst hp
      rw [lookup_edgeAdd_self]
      simp only [Option.getD_some, List.mem_append, List.mem_singleton]
      constructor
      · rintro (⟨h | h⟩ | h)
        · exact Or.inl h
        · exact Or.inr ⟨a, Or.inl rfl, rfl, h.symm⟩
        · obtain ⟨pr, hpr, hf, hg⟩ := h
          exact Or.inr ⟨pr, Or.inr hpr, hf, hg⟩
      · rintro (h | ⟨pr, hpr | hpr, hf, hg⟩)
        · exact Or.inl (Or.inl h)
        · subst hpr; exact Or.inl (Or.inr hg.symm)
        · exact Or.inr ⟨pr, hpr, hf, hg⟩
    · rw [lookup_edgeAdd_ne _ _ _ _ hp]
      constructor
      · rintro (h | ⟨pr, hpr, hf, hg⟩)
        · exact Or.inl h
        · exact Or.inr ⟨pr, Or.inr hpr, hf, hg⟩
      · rintro (h | ⟨pr, hpr | hpr, hf, hg⟩)
        · exact Or.inl h
        · subst hpr; exact absurd hf.symm hp
        · exact Or.inr ⟨pr, hpr, hf, hg⟩

theorem foldl_precStep_eq (l : List Precedence) :
    ∀ (mp ms : List (Int × List Int)),
    l.foldl precStep (mp, ms) =
      (l.foldl (fun m pr => edgeAdd m pr.successor pr.predecessor) mp,
       l.foldl (fun m pr => edgeAdd m pr.predecessor pr.successor) ms) := by
  induction l with
  | nil => intro mp ms; rfl
  | cons a rest ih =>
    intro mp ms
    simp only [List.foldl_cons, precStep_eq]
    exact ih _ _

theorem build_of_built (pi : ProblemInstance) (h : pi._data_built = true) :
    _build_data_if_needed pi = pi := by
  simp [_build_data_if_needed, h]

theorem build_sets_flag (pi : ProblemInstance) :
    (_build_data_if_needed pi)._data_built = true := by
  cases h : pi._data_built <;> simp [_build_data_if_needed, h]

theorem build_idem (pi : ProblemInstance) :
    _build_data_if_needed (_build_data_if_needed pi) = _build_data_if_needed pi :=
  build_of_built _ (build_sets_flag pi)

theorem mem_precedences_iff (l : List Precedence) (p s : Int) :
    Precedence.mk p s ∈ l ↔ ∃ pr ∈ l, pr.predecessor = p ∧ pr.successor = s := by
  constructor
  · intro h; exact ⟨⟨p, s⟩, h, rfl, rfl⟩
  · rintro ⟨⟨p', s'⟩, hmem, hp, hs⟩
    cases hp; cases hs; exact hmem

/-- C7: for every instance, after the derived indices are built, a pair
`(p, s)` is backed by a `Precedence` in the precedence collection exactly
when `s` appears in `job_successors[p]`, and exactly when `p` appears in
`job_predecessors[s]` (a key absent from a map reads as the empty list of
neighbours). -/
theorem C7_derived_index_consistency (name : Option String) (horizon : Int)
    (jobs : List Job) (precedences : List Precedence) (resources : List Resource)
    (build_data : Bool) (p s : Int) :
    let b := _build_data_if_needed
      (ProblemInstance.make name horizon jobs precedences resources build_data)
    ((Precedence.mk p s ∈ precedences) ↔ s ∈ ((b._job_successors.lookup p).getD []))
    ∧ ((Precedence.mk p s ∈ precedences) ↔ p ∈ ((b._job_predecessors.lookup s).getD [])) := by
  intro b
  have hb : b = _build_data_if_needed
      (ProblemInstance.make name horizon jobs precedences resources false) := by
    cases build_data with
    | false => rfl
    | true =>
      exact build_idem (ProblemInstance.make name horizon jobs precedences resources false)
  have hmaps :
      (precedences.foldl precStep ([], [])) =
        (precedences.foldl (fun m pr => edgeAdd m pr.successor pr.predecessor) [],
         precedences.foldl (fun m pr => edgeAdd m pr.predecessor pr.successor) []) :=
    foldl_precStep_eq precedences [] []
  have hsucc : b._job_successors =
      precedences.foldl (fun m pr => edgeAdd m pr.predecessor pr.successor) [] := by
    rw [hb]; simp [_build_data_if_needed, ProblemInstance.make, hmaps]
  have hpred : b._job_predecessors =
      precedences.foldl (fun m pr => edgeAdd m pr.successor pr.predecessor) [] := by
    rw [hb]; simp [_build_data_if_needed, ProblemInstance.make, hmaps]
  constructor
  · rw [hsucc, mem_lookup_foldl_edgeAdd Precedence.predecessor Precedence.successor,
      mem_precedences_iff]
    simp [List.lookup]
  · rw [hpred, mem_lookup_foldl_edgeAdd Precedence.successor Precedence.predecessor,
      mem_precedences_iff]
    simp only [List.lookup, Option.getD_none, List.not_mem_nil, false_or]
    constructor
    · rintro ⟨pr, hmem, hp, hs⟩; exact ⟨pr, hmem, hs, hp⟩
    · rintro ⟨pr, hmem, hs, hp⟩; exact ⟨pr, hmem, hp, hs⟩

/-- C8: the derived-index build is idempotent: the first access to any of
the four derived-map properties builds all four maps and sets the build
flag; a repeated build is the identity, repeated accesses return the same
cached maps, and the visible instance state is unchanged by the build. -/
theorem C8_build_idempotent (name : Option String) (horizon : Int)
    (jobs : List Job) (precedences : List Precedence) (resources : List Resource) :
    let i := ProblemInstance.make name horizon jobs precedences resources false
    let b := _build_data_if_needed i
    b._data_built = true
    ∧ _build_data_if_needed b = b
    ∧ jobs_by_id i = b._jobs_by_id
    ∧ job_predecessors i = b._job_predecessors
    ∧ job_successors i = b._job_successors
    ∧ resources_by_key i = b._resources_by_key
    ∧ jobs_by_id b = b._jobs_by_id
    ∧ job_predecessors b = b._job_predecessors
    ∧ job_successors b = b._job_successors
    ∧ resources_by_key b = b._resources_by_key
    ∧ b.name = i.name ∧ b.horizon = i.horizon ∧ b.jobs = i.jobs
    ∧ b.precedences = i.precedences ∧ b.resources = i.resources := by
  intro i b
  have hflag : b._data_built = true := build_sets_flag i
  have hidem : _build_data_if_needed b = b := build_of_built _ hflag
  refine ⟨hflag, hidem, rfl, rfl, rfl, rfl, ?_, ?_, ?_, ?_, ?_, ?_, ?_, ?_, ?_⟩
  · show (_build_data_if_needed b)._jobs_by_id = _
    rw [hidem]
  · show (_build_data_if_needed b)._job_predecessors = _
    rw [hidem]
  · show (_build_data_if_needed b)._job_successors = _
    rw [hidem]
  · show (_build_data_if_needed b)._resources_by_key = _
    rw [hidem]
  all_goals rfl

/-- C10: for every `Job` (whose id is an integer), `__repr__` never
returns a string: it always raises `AttributeError`, because it accesses
the `__name__` attribute on the integer id. -/
theorem C10_job_repr_raises (j : Job) :
    Job.__repr__ j = .error .attributeError := rfl

/-! ## Claim C3: `read_line` -/

theorem head?_dropWhile_false (p : Char → Bool) (l : List Char) :
    ∀ c, (l.dropWhile p).head? = some c → p c = false := by
  induction l with
  | nil => intro c h; simp [List.dropWhile] at h
  | cons a l ih =>
    intro c h
    rw [List.dropWhile_cons] at h
    by_cases hp : p a = true
    · rw [if_pos hp] at h
      exact ih c h
    · rw [if_neg hp] at h
      simp only [List.head?_cons, Option.some.injEq] at h
      subst h
      exact Bool.not_eq_true _ |>.mp hp

theorem py_rstrip_spec (s : String) :
    ∃ ws : List Char, s.data = (py_rstrip s).data ++ ws
      ∧ (∀ c ∈ ws, py_isspace c = true)
      ∧ (∀ c, (py_rstrip s).data.getLast? = some c → py_isspace c = false) := by
  refine ⟨(s.data.reverse.takeWhile py_isspace).reverse, ?_, ?_, ?_⟩
  · show s.data = (s.data.reverse.dropWhile py_isspace).reverse ++ _
    calc s.data = s.data.reverse.reverse := (List.reverse_reverse _).symm
    _ = (s.data.reverse.takeWhile py_isspace ++ s.data.reverse.dropWhile py_isspace).reverse := by
        rw [List.takeWhile_append_dropWhile]
    _ = (s.data.reverse.dropWhile py_isspace).reverse ++
          (s.data.reverse.takeWhile py_isspace).reverse := List.reverse_append _ _
  · intro c hc
    rw [List.mem_reverse] at hc
    exact List.mem_takeWhile_imp hc
  · intro c hc
    have h2 : (s.data.reverse.dropWhile py_isspace).reverse.getLast? = some c := hc
    rw [List.getLast?_reverse] at h2
    exact head?_dropWhile_false py_isspace _ c h2

/-- C3 (amended): `read_line` returns the next line with all trailing
whitespace stripped (the line terminator, but also trailing spaces, tabs,
and other whitespace: the dropped suffix is all-whitespace and the result
ends in a non-whitespace character), and advances the internal 1-based
line counter by one. -/
theorem C3_read_line_strips_trailing_whitespace (fp : FileParser) :
    ((read_line fp).2.linenum = fp.linenum + 1)
    ∧ ((read_line fp).2.pos = fp.pos + 1)
    ∧ ((read_line fp).2.name = fp.name)
    ∧ ((read_line fp).2.lines = fp.lines)
    ∧ ∃ ws : List Char, (fp.lines.getD fp.pos "").data = (read_line fp).1.data ++ ws
      ∧ (∀ c ∈ ws, py_isspace c = true)
      ∧ (∀ c, (read_line fp).1.data.getLast? = some c → py_isspace c = false) := by
  exact ⟨rfl, rfl, rfl, rfl, py_rstrip_spec (fp.lines.getD fp.pos "")⟩

/-- Closed instantiation of `C3_read_line_strips_trailing_whitespace` at a
concrete one-line source, evaluating the embedded scanner on it. -/
theorem C3_witness :
    ∃ ws : List Char,
      ((⟨"w.sm", ["ab \t\n"], 0, 0⟩ : FileParser).lines.getD 0 "").data =
        (read_line ⟨"w.sm", ["ab \t\n"], 0, 0⟩).1.data ++ ws
      ∧ (∀ c ∈ ws, py_isspace c = true)
      ∧ (∀ c, (read_line ⟨"w.sm", ["ab \t\n"], 0, 0⟩).1.data.getLast? = some c →
          py_isspace c = false) :=
  (C3_read_line_strips_trailing_whitespace ⟨"w.sm", ["ab \t\n"], 0, 0⟩).2.2.2.2

/-- C3 counterexample: on the physical line `"ab \t\n"`, `read_line`
returns `"ab"`, not the `"ab \t"` that stripping only the line
terminator would give: trailing spaces and tabs are removed too. -/
theorem C3_counterexample :
    (read_line ⟨"c3.sm", ["ab \t\n"], 0, 0⟩).1 = "ab"
    ∧ specStripLineTerminator "ab \t\n" = "ab \t"
    ∧ (read_line ⟨"c3.sm", ["ab \t\n"], 0, 0⟩).1 ≠
        specStripLineTerminator "ab \t\n" := by
  refine ⟨?_, ?_, ?_⟩ <;> decide

/-! ## Claim C6: `parse_line` error behaviour -/

theorem reRun_some {α : Type} :
    ∀ (fuel : Nat) (re : RE) (cs : List Char) (caps : List (Nat × String))
      (k : List Char → List (Nat × String) → Option α) (r : α),
      reRun fuel re cs caps k = some r → ∃ cs' caps', k cs' caps' = some r := by
  intro fuel
  induction fuel with
  | zero => intro re cs caps k r h; simp [reRun] at h
  | succ fuel ih =>
    intro re cs caps k r h
    cases re with
    | eps => exact ⟨cs, caps, h⟩
    | cls p =>
      cases cs with
      | nil => simp [reRun] at h
      | cons c rest =>
        simp only [reRun] at h
        split at h
        · exact ⟨rest, caps, h⟩
        · cases h
    | seq a b =>
      simp only [reRun] at h
      obtain ⟨cs1, caps1, h1⟩ := ih a cs caps _ r h
      exact ih b cs1 caps1 k r h1
    | alt a b =>
      simp only [reRun] at h
      cases ha : reRun fuel a cs caps k with
      | some r' =>
        rw [ha] at h
        cases h
        exact ih a cs caps k r ha
      | none =>
        rw [ha] at h
        exact ih b cs caps k r h
    | star a =>
      simp only [reRun] at h
      cases hs : reRun fuel a cs caps (fun cs' caps' =>
          if cs'.length < cs.length then reRun fuel (.star a) cs' caps' k else none) with
      | some r' =>
        rw [hs] at h
        cases h
        obtain ⟨cs1, caps1, h1⟩ := ih a cs caps _ r hs
        split at h1
        · exact ih (.star a) cs1 caps1 k r h1
        · cases h1
      | none =>
        rw [hs] at h
        exact ⟨cs, caps, h⟩
    | group i a =>
      simp only [reRun] at h
      obtain ⟨cs1, caps1, h1⟩ := ih a cs caps _ r h
      exact ⟨cs1, _, h1⟩

theorem reGroups_length (re : RE) (caps : List (Nat × String)) :
    (reGroups re caps).length = re.numGroups := by
  simp [reGroups]

theorem reFullmatch_some_length (re : RE) (s : String) (values : List (Option String))
    (h : reFullmatch re s = some values) : values.length = re.numGroups := by
  obtain ⟨cs', caps', hk⟩ := reRun_some _ _ _ _ _ _ h
  split at hk
  · cases hk; exact reGroups_length re caps'
  · cases hk

theorem reMatch_some_length (re : RE) (s : String) (values : List (Option String))
    (h : reMatch re s = some values) : values.length = re.numGroups := by
  obtain ⟨cs', caps', hk⟩ := reRun_some _ _ _ _ _ _ h
  cases hk
  exact reGroups_length re caps'

theorem ConvSpec.convs_length (types : ConvSpec) : types.convs.length = types.count := by
  cases types <;> rfl

/-- C6: `parse_line` fails with `ParseError` exactly when the pattern
does not match the line read (full match by default, prefix match when
`fullmatch` is false) or the number of converters differs from the number
of the pattern's capture groups; every such error carries the source name
and the current (just-incremented) line number. -/
theorem C6_parse_line_error_iff (fp : FileParser) (pattern : RE) (types : ConvSpec)
    (fm : Bool) :
    ((∃ f l m, parse_line fp pattern types fm = .error (.parseError f l m)) ↔
      ((if fm then reFullmatch pattern (read_line fp).1
        else reMatch pattern (read_line fp).1) = none
        ∨ types.count ≠ pattern.numGroups))
    ∧ (∀ f l m, parse_line fp pattern types fm = .error (.parseError f l m) →
        f = fp.name ∧ l = fp.linenum + 1) := by
  cases hmo : (if fm then reFullmatch pattern (read_line fp).1
      else reMatch pattern (read_line fp).1) with
  | none =>
    have hpl : parse_line fp pattern types fm =
        .error (.parseError (read_line fp).2.name (read_line fp).2.linenum
          "Pattern did not match the current line") := by
      unfold parse_line
      rw [hmo]
    constructor
    · constructor
      · intro _; exact Or.inl rfl
      · intro _; exact ⟨fp.name, fp.linenum + 1, _, hpl⟩
    · intro f l m hh
      rw [hpl] at hh
      injection hh with hh
      injection hh with h1 h2 h3
      exact ⟨h1.symm, h2.symm⟩
  | some values =>
    have hvlen : values.length = pattern.numGroups := by
      cases fm with
      | true =>
        rw [if_pos rfl] at hmo
        exact reFullmatch_some_length _ _ _ hmo
      | false =>
        rw [if_neg (by simp)] at hmo
        exact reMatch_some_length _ _ _ hmo
    by_cases harity : types.convs.length ≠ values.length
    · have hcount : types.count ≠ pattern.numGroups := by
        rw [← ConvSpec.convs_length, ← hvlen]
        exact harity
      have hpl : parse_line fp pattern types fm =
          .error (.parseError (read_line fp).2.name (read_line fp).2.linenum
            "Number of matched values does not correspond to number of expected values") := by
        simp only [parse_line, hmo]
        rw [if_pos harity]
      constructor
      · constructor
        · intro _; exact Or.inr hcount
        · intro _; exact ⟨fp.name, fp.linenum + 1, _, hpl⟩
      · intro f l m hh
        rw [hpl] at hh
        injection hh with hh
        injection hh with h1 h2 h3
        exact ⟨h1.symm, h2.symm⟩
    · have hcount : ¬ types.count ≠ pattern.numGroups := by
        rw [← ConvSpec.convs_length, ← hvlen]
        exact harity
      have hnotparse : ∀ f l m, parse_line fp pattern types fm ≠ .error (.parseError f l m) := by
        intro f l m
        simp only [parse_line, hmo]
        rw [if_neg harity]
        cases hconv : (values.zip types.convs).mapM (fun vf => vf.2 vf.1) with
        | none => intro hh; injection hh with hh; cases hh
        | some parsed =>
          clear hconv
          cases types <;> exact fun hh => Except.noConfusion hh
      constructor
      · constructor
        · rintro ⟨f, l, m, hh⟩; exact absurd hh (hnotparse f l m)
        · rintro (hh | hh)
          · exact Option.noConfusion hh
          · exact absurd hh hcount
      · intro f l m hh
        exact absurd hh (hnotparse f l m)

/-- Closed instantiation of `C6_parse_line_error_iff`: on the line
`"abc"` against the digits pattern `(\d+)`, `parse_line` raises a
`ParseError`. -/
theorem C6_witness :
    ∃ f l m, parse_line ⟨"w6.sm", ["abc\n"], 0, 0⟩
        (reCat [.group 0 (RE.plus dP)]) (.single conv_int) true =
      .error (.parseError f l m) :=
  (C6_parse_line_error_iff ⟨"w6.sm", ["abc\n"], 0, 0⟩
      (reCat [.group 0 (RE.plus dP)]) (.single conv_int) true).1.mpr
    (Or.inl (by decide))

/-- C5: for each of the `job_count` records of the precedence-relations
section: a record whose declared `successor_count` differs from the
length of its parsed successor list makes the decoder fail with a
`ParseError` (wherever in the section it occurs, provided the records
before it parsed cleanly); and when the whole section succeeds, every
record passed that check and the result contributes exactly one
`(job_id, successor)` pair per listed successor of each record, and
nothing else. -/
theorem C5_precedence_section (n : Nat) (fp : FileParser) (acc : List (Int × Int)) :
    (∀ ps fp', prec_loop n fp acc = .ok (ps, fp') →
      ∃ recs, PrecChain n fp recs fp' ∧
        ps = acc ++ recs.flatMap (fun r => r.2.2.2.map (fun s => (r.1, s))))
    ∧ (∀ k recs fp1 r fp2, k < n → PrecChain k fp recs fp1 →
        read_prec_record fp1 = .ok (r, fp2) → r.2.2.1 ≠ (r.2.2.2.length : Int) →
        prec_loop n fp acc = .error (.parseError fp2.name fp2.linenum
          "Number of parsed job successors does not match the expected number of job successors")) := by
  induction n generalizing fp acc with
  | zero =>
    constructor
    · intro ps fp' h
      simp only [prec_loop] at h
      injection h with h'
      injection h' with h1 h2
      subst h1; subst h2
      exact ⟨[], ⟨rfl, rfl⟩, by simp⟩
    · intro k recs fp1 r fp2 hk
      exact absurd hk (Nat.not_lt_zero k)
  | succ n ih =>
    constructor
    · intro ps fp' h
      simp only [prec_loop] at h
      cases hr : read_prec_record fp with
      | error e => rw [hr] at h; cases h
      | ok rfp1 =>
        obtain ⟨⟨jid, m, cnt, succs⟩, fp1⟩ := rfp1
        rw [hr] at h
        dsimp only at h
        split at h
        · cases h
        · rename_i hcnt
          obtain ⟨recs, hchain, hps⟩ :=
            (ih fp1 (acc ++ succs.map fun s => (jid, s))).1 ps fp' h
          refine ⟨(jid, m, cnt, succs) :: recs,
            ⟨(jid, m, cnt, succs), recs, fp1, rfl, hr, not_ne_iff.mp hcnt, hchain⟩, ?_⟩
          rw [hps]
          simp [List.flatMap_cons, List.append_assoc]
    · intro k recs fp1 r fp2 hk hchain hr hbad
      cases k with
      | zero =>
        obtain ⟨hrecs, hfp⟩ := hchain
        subst hfp
        obtain ⟨jid, m, cnt, succs⟩ := r
        simp only [prec_loop]
        rw [hr]
        dsimp only
        rw [if_pos hbad]
      | succ k =>
        obtain ⟨r0, rs, fp0, hrecs, hr0, hok, hchain'⟩ := hchain
        obtain ⟨jid0, m0, cnt0, succs0⟩ := r0
        simp only [prec_loop]
        rw [hr0]
        dsimp only
        rw [if_neg (not_ne_iff.mpr hok)]
        exact (ih fp0 (acc ++ succs0.map fun s => (jid0, s))).2 k rs fp1 r fp2
          (Nat.lt_of_succ_lt_succ hk) hchain' hr hbad

/-- Closed instantiation of `C5_precedence_section`: a one-record section
whose record declares 2 successors but lists only one fails with the
successor-count `ParseError`. -/
theorem C5_witness :
    prec_loop 1 ⟨"c5.sm", ["   1    1    2     3\n"], 0, 0⟩ [] =
      .error (.parseError "c5.sm" 1
        "Number of parsed job successors does not match the expected number of job successors") :=
  (C5_precedence_section 1 ⟨"c5.sm", ["   1    1    2     3\n"], 0, 0⟩ []).2
    0 [] ⟨"c5.sm", ["   1    1    2     3\n"], 0, 0⟩ (1, 1, 2, [3])
    ⟨"c5.sm", ["   1    1    2     3\n"], 1, 1⟩
    (by decide) ⟨rfl, rfl⟩ (by rfl) (by decide)

/-! ## Claim C2: resources and consumption totality -/

theorem ebind_ok_inv {ε α β : Type} {x : Except ε α} {f : α → Except ε β} {b : β}
    (h : (x >>= f) = .ok b) : ∃ a, x = .ok a ∧ f a = .ok b := by
  cases x with
  | error e => exact Except.noConfusion h
  | ok a => exact ⟨a, rfl, h⟩

theorem job_loop_ok_rows (num : Int) :
    ∀ (n : Nat) (fp : FileParser) (acc rows : List (Int × Int × List Int)) (fp' : FileParser),
      job_loop num n fp acc = .ok (rows, fp') →
      ∀ row ∈ rows, row ∈ acc ∨ (row.2.2.length : Int) = num := by
  intro n
  induction n with
  | zero =>
    intro fp acc rows fp' h row hrow
    simp only [job_loop] at h
    injection h with h'
    injection h' with h1 h2
    subst h1
    exact Or.inl hrow
  | succ n ih =>
    intro fp acc rows fp' h row hrow
    simp only [job_loop] at h
    cases hr : read_job_record fp with
    | error e => rw [hr] at h; cases h
    | ok rfp1 =>
      obtain ⟨⟨jid, m, dur, cons⟩, fp1⟩ := rfp1
      rw [hr] at h
      dsimp only at h
      split at h
      · cases h
      · rename_i hlen
        rcases ih fp1 (acc ++ [(jid, dur, cons)]) rows fp' h row hrow with hmem | hnum
        · rcases List.mem_append.mp hmem with h1 | h2
          · exact Or.inl h1
          · simp only [List.mem_singleton] at h2
            subst h2
            exact Or.inr (not_ne_iff.mp hlen)
        · exact Or.inr hnum

theorem build_resource_key (fp : FileParser) (key : String) (capacity : Int)
    (r : Resource) (h : build_resource fp key capacity = .ok r) : r.key = key := by
  unfold build_resource at h
  split at h
  · injection h with h'; subst h'; rfl
  · split at h
    · injection h with h'; subst h'; rfl
    · cases h

theorem mapM_build_resource_keys (fp : FileParser) :
    ∀ (l : List (String × Int)) (rs : List Resource),
      l.mapM (fun kc => build_resource fp kc.1 kc.2) = .ok rs →
      rs.map Resource.key = l.map Prod.fst := by
  intro l
  induction l with
  | nil =>
    intro rs h
    simp only [List.mapM_nil, pure, Except.pure] at h
    injection h with h'
    subst h'
    rfl
  | cons kc rest ih =>
    intro rs h
    rw [List.mapM_cons] at h
    obtain ⟨r, hr, h⟩ := ebind_ok_inv h
    obtain ⟨rs', hrs', h⟩ := ebind_ok_inv h
    simp only [pure, Except.pure] at h
    injection h with h'
    subst h'
    simp only [List.map_cons, build_resource_key fp kc.1 kc.2 r hr, ih rs' hrs']

theorem raw_ok_facts (fp0 : FileParser) (raw : RawParse)
    (h : _parse_psplib_raw fp0 = .ok raw) :
    (raw.resource_keys.length : Int) = raw.num_resources
    ∧ (∀ row ∈ raw.jobRows, (row.2.2.length : Int) = raw.num_resources) := by
  unfold _parse_psplib_raw at h
  obtain ⟨⟨project_count, fp1⟩, _, h⟩ := ebind_ok_inv h
  obtain ⟨⟨job_count, fp2⟩, _, h⟩ := ebind_ok_inv h
  obtain ⟨⟨horizon, fp3⟩, _, h⟩ := ebind_ok_inv h
  obtain ⟨⟨ren, fp4⟩, _, h⟩ := ebind_ok_inv h
  obtain ⟨⟨non, fp5⟩, _, h⟩ := ebind_ok_inv h
  obtain ⟨⟨dbl, fp6⟩, _, h⟩ := ebind_ok_inv h
  try dsimp only at h
  by_cases hpc : project_count ≠ 1
  · rw [if_pos hpc] at h
    exact Except.noConfusion h
  rw [if_neg hpc] at h
  by_cases hdbl : dbl > 0
  · rw [if_pos hdbl] at h
    exact Except.noConfusion h
  rw [if_neg hdbl] at h
  obtain ⟨⟨projs, fp7⟩, _, h⟩ := ebind_ok_inv h
  obtain ⟨⟨precPairs, fp8⟩, _, h⟩ := ebind_ok_inv h
  obtain ⟨⟨keys, fp9⟩, _, h⟩ := ebind_ok_inv h
  try dsimp only at h
  by_cases hkeys : (keys.length : Int) ≠ ren + non + dbl
  · rw [if_pos hkeys] at h
    exact Except.noConfusion h
  rw [if_neg hkeys] at h
  obtain ⟨⟨rows, fp10⟩, hrows, h⟩ := ebind_ok_inv h
  obtain ⟨⟨caps, fp11⟩, _, h⟩ := ebind_ok_inv h
  simp only [pure, Except.pure] at h
  injection h with h'
  subst h'
  refine ⟨not_ne_iff.mp hkeys, ?_⟩
  intro row hrow
  rcases job_loop_ok_rows _ _ _ _ _ _ hrows row hrow with hmem | hnum
  · exact absurd hmem (List.not_mem_nil row)
  · exact hnum

theorem build_instance_ok_inv (name : Option String) (raw : RawParse)
    (inst : ProblemInstance) (h : build_instance name raw = .ok inst) :
    ∃ resources, (raw.resource_keys.zip raw.capacities).mapM
        (fun kc => build_resource raw.finalSt kc.1 kc.2) = .ok resources
      ∧ inst = ProblemInstance.make name raw.horizon
          (raw.jobRows.map (fun r => build_job raw.resource_keys r.1 r.2.1 r.2.2))
          (raw.precPairs.map (fun pr => Precedence.mk pr.1 pr.2))
          resources false := by
  unfold build_instance at h
  cases hm : (raw.resource_keys.zip raw.capacities).mapM
      (fun kc => build_resource raw.finalSt kc.1 kc.2) with
  | error e => rw [hm] at h; exact Except.noConfusion h
  | ok rs =>
    rw [hm] at h
    injection h with h'
    exact ⟨rs, rfl, h'.symm⟩

/-- C2 (amended): for every instance returned by the PSPLIB decoder,
provided the availabilities line lists at least as many capacities as
there are parsed resource keys and the parsed resource keys are distinct:
the resource collection contains exactly the declared total resource
count, each parsed resource key names exactly one resource of the
collection, every resource key of the collection is a parsed key, every
key of every job's consumption map is a parsed resource key (and
conversely every parsed key has an entry), and each job's consumption map
has an entry for every resource of the collection. -/
theorem C2_resources_and_consumption (fp : FileParser) (name : Option String)
    (raw : RawParse) (inst : ProblemInstance)
    (hraw : _parse_psplib_raw fp = .ok raw)
    (hbuild : build_instance name raw = .ok inst)
    (hcaps : raw.resource_keys.length ≤ raw.capacities.length)
    (hnodup : raw.resource_keys.Nodup) :
    ((inst.resources.length : Int) = raw.num_resources)
    ∧ (∀ k ∈ raw.resource_keys, (inst.resources.map Resource.key).count k = 1)
    ∧ (∀ r ∈ inst.resources, r.key ∈ raw.resource_keys)
    ∧ (∀ job ∈ inst.jobs, ∀ k, ((job.consumption.lookup k).isSome ↔ k ∈ raw.resource_keys))
    ∧ (∀ job ∈ inst.jobs, ∀ r ∈ inst.resources, (job.consumption.lookup r.key).isSome) := by
  obtain ⟨hklen, hrows⟩ := raw_ok_facts fp raw hraw
  obtain ⟨rs, hmapM, hinst⟩ := build_instance_ok_inv name raw inst hbuild
  have hrskeys : rs.map Resource.key = raw.resource_keys := by
    rw [mapM_build_resource_keys raw.finalSt _ rs hmapM]
    exact List.map_fst_zip _ _ hcaps
  have hres : inst.resources = rs := by
    rw [hinst]
    rfl
  have hjobs : inst.jobs =
      raw.jobRows.map (fun r => build_job raw.resource_keys r.1 r.2.1 r.2.2) := by
    rw [hinst]
    rfl
  have hconsum : ∀ job ∈ inst.jobs, ∀ k,
      ((job.consumption.lookup k).isSome ↔ k ∈ raw.resource_keys) := by
    intro job hjob k
    rw [hjobs] at hjob
    obtain ⟨row, hrow, hjobeq⟩ := List.mem_map.mp hjob
    subst hjobeq
    show ((dictOfPairs (raw.resource_keys.zip row.2.2)).lookup k).isSome ↔ _
    rw [lookup_dictOfPairs_isSome]
    have hlen : raw.resource_keys.length ≤ row.2.2.length := by
      have h1 := hrows row hrow
      have h2 : (raw.resource_keys.length : Int) = (row.2.2.length : Int) := by
        rw [hklen, h1]
      exact le_of_eq (Nat.cast_inj.mp h2)
    rw [List.map_fst_zip _ _ hlen]
  have hkeymem : ∀ r ∈ inst.resources, r.key ∈ raw.resource_keys := by
    intro r hr
    rw [hres] at hr
    rw [← hrskeys]
    exact List.mem_map_of_mem Resource.key hr
  refine ⟨?_, ?_, hkeymem, hconsum, ?_⟩
  · rw [hres, ← hklen]
    have hlen : rs.length = raw.resource_keys.length := by
      rw [← hrskeys, List.length_map]
    rw [hlen]
  · intro k hk
    rw [hres, hrskeys]
    exact List.count_eq_one_of_mem hnodup hk
  · intro job hjob r hr
    exact (hconsum job hjob r.key).mpr (hkeymem r hr)

/-- C2 counterexample: on `c2_bad_lines` the decoder succeeds, the header
declares 2 resources and two resource keys are parsed, yet the instance's
resource collection has a single entry (the availabilities line is
silently truncated against the keys by `zip`) and the single job's
consumption dict has one entry, not one per declared resource. -/
theorem C2_counterexample :
    _parse_psplib_raw c2_bad_fp = .ok c2_bad_raw
    ∧ build_instance (some "C2") c2_bad_raw = .ok c2_bad_inst
    ∧ c2_bad_raw.num_resources = 2
    ∧ c2_bad_raw.resource_keys = ["R 1", "R 1"]
    ∧ c2_bad_inst.resources.length = 1
    ∧ c2_bad_inst.jobs.map (fun j => j.consumption.length) = [1] := by
  refine ⟨?_, ?_, ?_, ?_, ?_, ?_⟩ <;> rfl

/-- Closed instantiation of `C2_resources_and_consumption` on the good
input `c2_good_lines`, discharging every hypothesis by evaluation. -/
theorem C2_witness :
    ((c2_good_inst.resources.length : Int) = c2_good_raw.num_resources)
    ∧ (∀ k ∈ c2_good_raw.resource_keys,
        (c2_good_inst.resources.map Resource.key).count k = 1)
    ∧ (∀ r ∈ c2_good_inst.resources, r.key ∈ c2_good_raw.resource_keys)
    ∧ (∀ job ∈ c2_good_inst.jobs, ∀ k,
        ((job.consumption.lookup k).isSome ↔ k ∈ c2_good_raw.resource_keys))
    ∧ (∀ job ∈ c2_good_inst.jobs, ∀ r ∈ c2_good_inst.resources,
        (job.consumption.lookup r.key).isSome) :=
  C2_resources_and_consumption c2_good_fp (some "Test") c2_good_raw c2_good_inst
    (by rfl) (by rfl) (by decide) (by decide)

/-- C9: a key containing `'R'` yields a `RenewableResource` whose
`capacity` is the parsed value; otherwise a key containing `'N'` yields a
`NonRenewableResource` whose `initial_capacity` is the same value; a key
with neither character fails with `UnsupportedOperation`. -/
theorem C9_build_resource_kinds (fp : FileParser) (key : String) (capacity : Int) :
    ('R' ∈ key.data → build_resource fp key capacity = .ok (.renewable key capacity))
    ∧ ('R' ∉ key.data → 'N' ∈ key.data →
        build_resource fp key capacity = .ok (.nonRenewable key capacity))
    ∧ ('R' ∉ key.data → 'N' ∉ key.data →
        build_resource fp key capacity = .error (.unsupportedOperation fp.name fp.linenum
          "Can not recognize resource type from resource key")) := by
  refine ⟨?_, ?_, ?_⟩
  · intro h; simp [build_resource, h]
  · intro h1 h2; simp [build_resource, h1, h2]
  · intro h1 h2; simp [build_resource, h1, h2]

/-- Closed instantiation of `C9_build_resource_kinds` on the keys
`"R 1"`, `"N 1"` and `"X 1"`. -/
theorem C9_witness :
    build_resource ⟨"w9.sm", [], 0, 0⟩ "R 1" 5 = .ok (.renewable "R 1" 5)
    ∧ build_resource ⟨"w9.sm", [], 0, 0⟩ "N 1" 6 = .ok (.nonRenewable "N 1" 6)
    ∧ build_resource ⟨"w9.sm", [], 0, 0⟩ "X 1" 7 =
        .error (.unsupportedOperation "w9.sm" 0
          "Can not recognize resource type from resource key") :=
  ⟨(C9_build_resource_kinds ⟨"w9.sm", [], 0, 0⟩ "R 1" 5).1 (by decide),
   (C9_build_resource_kinds ⟨"w9.sm", [], 0, 0⟩ "N 1" 6).2.1 (by decide) (by decide),
   (C9_build_resource_kinds ⟨"w9.sm", [], 0, 0⟩ "X 1" 7).2.2 (by decide) (by decide)⟩

/-- C1: evaluating the encoder at an instance containing a job with no
successors: the encoding does not succeed — `job_successors` has no entry
for such a job, so `_encode_job` raises `KeyError` instead of producing
an empty `Successors` array. -/
theorem C1_encode_keyerror : encoder_default c1_instance = .error .keyError := by rfl

/-- C4: evaluating the encode-then-decode round trip at a one-job
instance: the encoding step itself raises `KeyError` (the job has no
entry in `job_successors`), so no JSON value is produced and no decode
can yield an equal instance. -/
theorem C4_roundtrip_blocked : encoder_default c4_instance = .error .keyError := by rfl

end PSPLib

